import Mathlib

/-!
Shallow embedding of the dynamic-form-builder backend core:
the `FormValidator` rule engine (backend/utils/formValidator.js),
the flat-file document store (backend/utils/fileStore.js),
the submission controller (backend/controllers/submissionController.js),
and the mongoose form controller with version snapshotting
(backend/controllers/formController.js, backend/models/Form.js,
backend/models/FormVersion.js).

JavaScript runtime primitives that are not repo code (`Number(...)`,
`new Date(...)`, `new RegExp(pattern).test(...)`, `toISOString`, the
sanitizer's per-string transformation) are abstracted into a `JsPrims`
record that the embedded functions take as a parameter; every theorem
quantifies over it, and witnesses instantiate it with `defaultPrims`.
-/

namespace FormBuilder

/-- A JavaScript value as it appears in a submission's `answers` object.
`vNull` stands for both `null` and `undefined` (a missing `answers[name]`
lookup yields `undefined`, which the validator treats like `null`). -/
inductive Value where
  | vNull : Value
  | vStr (s : String) : Value
  | vNum (q : Rat) : Value
  | vBool (b : Bool) : Value
  | vArr (items : List Value) : Value
  | vObj (props : List (String × Value)) : Value

/-- JavaScript truthiness of a value (`if (x)`):
null/undefined, `""`, `0` and `false` are falsy; arrays and objects are
truthy. -/
def jsTruthy : Value → Bool
  | .vNull => false
  | .vStr s => s ≠ ""
  | .vNum q => q ≠ 0
  | .vBool b => b
  | .vArr _ => true
  | .vObj _ => true

/-- JavaScript `String.prototype.trim`: strip leading and trailing
whitespace. Embedded over the character list so that it computes by
kernel reduction. -/
def jsTrim (s : String) : String :=
  ⟨((s.data.dropWhile Char.isWhitespace).reverse.dropWhile Char.isWhitespace).reverse⟩

/-- `FormValidator.isEmpty`: null/undefined are empty, a string is empty iff
its trimmed form is empty, an array is empty iff its length is 0, and any
other value is never empty. -/
def jsIsEmpty : Value → Bool
  | .vNull => true
  | .vStr s => jsTrim s = ""
  | .vArr items => items.isEmpty
  | _ => false

/-- JavaScript runtime primitives used by the validator and controllers. -/
structure JsPrims where
  /-- `Number(value)`; `none` models `NaN`. -/
  toNumber : Value → Option Rat
  /-- String coercion applied by `RegExp.test` to non-string arguments. -/
  coerceStr : Value → String
  /-- `new RegExp(pattern).test(s)` for a user-supplied pattern. -/
  regexTest : String → String → Bool
  /-- `new Date(value).getTime()`; `none` models `NaN` (unparsable). -/
  parseDate : Value → Option Rat
  /-- `date.toISOString().slice(0, 10)` used in the min-date message. -/
  formatDate : Rat → String
  /-- `sanitizeString` / `sanitizeObject` applied to one answer value. -/
  sanitizeVal : Value → Value

/-- A trivial concrete instantiation of the runtime primitives, used only to
evaluate the embedded code on concrete inputs. -/
def defaultPrims : JsPrims where
  toNumber := fun _ => none
  coerceStr := fun _ => ""
  regexTest := fun _ _ => false
  parseDate := fun _ => none
  formatDate := fun _ => ""
  sanitizeVal := fun v => v

/-- One entry of the validator's `errors` array: `{ field, message }`. -/
structure Err where
  field : String
  message : String
deriving DecidableEq, Repr

/-- The `validation` constraint bag of a field. Stored fields always carry a
validation object (`fileStore` materializes `validation: f.validation || {}`),
so it is embedded as a record of optional constraints. -/
structure Validation where
  min : Option Rat := none
  max : Option Rat := none
  minLength : Option Int := none
  maxLength : Option Int := none
  pattern : Option String := none
  customMessage : Option String := none
  minDate : Option String := none
deriving DecidableEq, Repr

/-- One form field as stored. `conditionalFields`/`showWhen` are carried
opaquely by the repo and read by no function embedded here (the validator,
the reorder operation and the stores never inspect them), so they are
omitted from the projection. `type` is a plain string: the validator's
`switch` has no default case, so unknown types get no type-specific check. -/
structure Field where
  id : String
  label : String
  type : String
  name : String
  required : Bool
  options : List String
  validation : Validation
  order : Int
deriving DecidableEq, Repr

/-- Form `settings`. -/
structure Settings where
  submitButtonText : String := "Submit"
  successMessage : String := "Thank you for your submission!"
  allowMultipleSubmissions : Bool := true
deriving DecidableEq, Repr

/-- A stored form document. -/
structure Form where
  id : String
  title : String
  description : String
  status : String
  fields : List Field
  version : Int
  settings : Settings
  createdAt : String
  updatedAt : String
deriving DecidableEq, Repr

/-- The error pushed for a required-and-empty field. -/
def requiredErr (f : Field) : Err :=
  ⟨f.name, f.label ++ " is required"⟩

/-- The `minLength` violation error for a text/textarea field. -/
def minLengthErr (f : Field) (n : Int) : Err :=
  ⟨f.name, f.label ++ " must be at least " ++ toString n ++ " characters"⟩

/-- The `maxLength` violation error for a text/textarea field. -/
def maxLengthErr (f : Field) (n : Int) : Err :=
  ⟨f.name, f.label ++ " must be at most " ++ toString n ++ " characters"⟩

/-- Whitespace-free and `@`-free run, i.e. a nonempty match of `[^\s@]+`
is such a run of positive length. -/
def noWsAt (s : String) : Bool :=
  s.toList.all fun c => !c.isWhitespace && c ≠ '@'

/-- The literal email regex `^[^\s@]+@[^\s@]+\.[^\s@]+$`: exactly one `@`,
a nonempty whitespace-free local part, and a domain part containing a `.`
that has at least one character on each side. -/
def emailTest (s : String) : Bool :=
  match s.splitOn "@" with
  | [a, b] => a ≠ "" && noWsAt a && noWsAt b && ((b.toList.drop 1).dropLast.contains '.')
  | _ => false

/-- `FormValidator.validateEmail`. `RegExp.test` coerces non-string values
to strings first. -/
def validateEmail (p : JsPrims) (f : Field) (v : Value) : List Err :=
  let s := match v with | .vStr s => s | _ => p.coerceStr v
  if emailTest s then [] else [⟨f.name, f.label ++ " must be a valid email address"⟩]

/-- `FormValidator.validateNumber`: `Number(value)` then `min`/`max`, each
checked with `!== undefined` (so `0` bounds are honoured), both able to fire. -/
def validateNumber (p : JsPrims) (f : Field) (v : Value) : List Err :=
  match p.toNumber v with
  | none => [⟨f.name, f.label ++ " must be a valid number"⟩]
  | some num =>
    (match f.validation.min with
     | some m => if num < m then [⟨f.name, f.label ++ " must be at least " ++ toString m⟩] else []
     | none => []) ++
    (match f.validation.max with
     | some m => if num > m then [⟨f.name, f.label ++ " must be at most " ++ toString m⟩] else []
     | none => [])

/-- `FormValidator.validateText`: non-strings are rejected outright; then
`minLength`, `maxLength` and `pattern` are checked. All three constraint
reads are JavaScript truthiness tests, so a `0` length bound or an empty
pattern/custom message is skipped. The length compared is the raw
`value.length`, not the trimmed length. -/
def validateText (p : JsPrims) (f : Field) (v : Value) : List Err :=
  match v with
  | .vStr s =>
    (match f.validation.minLength with
     | some n => if n ≠ 0 ∧ (s.length : Int) < n then [minLengthErr f n] else []
     | none => []) ++
    (match f.validation.maxLength with
     | some n => if n ≠ 0 ∧ (s.length : Int) > n then [maxLengthErr f n] else []
     | none => []) ++
    (match f.validation.pattern with
     | some pat =>
       if pat ≠ "" ∧ ¬p.regexTest pat s then
         [⟨f.name,
           match f.validation.customMessage with
           | some m => if m ≠ "" then m else f.label ++ " format is invalid"
           | none => f.label ++ " format is invalid"⟩]
       else []
     | none => [])
  | _ => [⟨f.name, f.label ++ " must be text"⟩]

/-- `FormValidator.validateDate`: unparsable dates are rejected; otherwise a
parseable `minDate` bound rejects strictly earlier dates. -/
def validateDate (p : JsPrims) (f : Field) (v : Value) : List Err :=
  match p.parseDate v with
  | none => [⟨f.name, f.label ++ " must be a valid date"⟩]
  | some t =>
    match f.validation.minDate with
    | some md =>
      if md ≠ "" then
        match p.parseDate (.vStr md) with
        | some mt =>
          if t < mt then [⟨f.name, f.label ++ " must be on or after " ++ p.formatDate mt⟩]
          else []
        | none => []
      else []
    | none => []

/-- `field.options.includes(v)`: JavaScript `===` never equates a string
with a non-string value. -/
def valueInOptions (opts : List String) : Value → Bool
  | .vStr s => opts.contains s
  | _ => false

/-- `FormValidator.validateCheckbox`: the value must be an array; with a
nonempty option list, any non-member element yields one aggregate error. -/
def validateCheckbox (f : Field) (v : Value) : List Err :=
  match v with
  | .vArr items =>
    if f.options ≠ [] ∧ items.any (fun x => ¬valueInOptions f.options x) then
      [⟨f.name, f.label ++ " contains invalid options"⟩]
    else []
  | _ => [⟨f.name, f.label ++ " must be an array of values"⟩]

/-- `FormValidator.validateOption` (radio/select): with a nonempty option
list the value must be a member. -/
def validateOption (f : Field) (v : Value) : List Err :=
  if f.options ≠ [] ∧ ¬valueInOptions f.options v then
    [⟨f.name, f.label ++ " must be one of the provided options"⟩]
  else []

/-- Truthy object property, e.g. `value.path` in `validateFile`. -/
def objTruthy (props : List (String × Value)) (k : String) : Bool :=
  match props.lookup k with
  | some v => jsTruthy v
  | none => false

mutual

/-- `FormValidator.validateFile`: arrays must be nonempty and each element
is validated recursively; otherwise the value must be a non-null object
with truthy `path` and `originalName` properties. -/
def validateFile (f : Field) : Value → List Err
  | .vArr items =>
    (if items.isEmpty then [⟨f.name, f.label ++ " must include at least one file"⟩] else []) ++
      validateFileList f items
  | .vObj props =>
    if !objTruthy props "path" || !objTruthy props "originalName" then
      [⟨f.name, f.label ++ " file metadata is missing"⟩]
    else []
  | _ => [⟨f.name, f.label ++ " must be a file"⟩]

/-- Element-wise recursion of `validateFile` over `value.forEach(...)`. -/
def validateFileList (f : Field) : List Value → List Err
  | [] => []
  | v :: vs => validateFile f v ++ validateFileList f vs

end

/-- `FormValidator.validateField`: the required check comes first and stops
validation of the field; an empty optional value skips all checks; then the
type-specific check is dispatched on `field.type` (no default case). -/
def validateField (p : JsPrims) (f : Field) (v : Value) : List Err :=
  if f.required ∧ jsIsEmpty v then [requiredErr f]
  else if jsIsEmpty v then []
  else
    match f.type with
    | "email" => validateEmail p f v
    | "number" => validateNumber p f v
    | "text" => validateText p f v
    | "textarea" => validateText p f v
    | "date" => validateDate p f v
    | "checkbox" => validateCheckbox f v
    | "radio" => validateOption f v
    | "select" => validateOption f v
    | "file" => validateFile f v
    | _ => []

/-- The result object of `FormValidator.validate`. -/
structure VResult where
  isValid : Bool
  errors : List Err
deriving DecidableEq, Repr

/-- `this.answers[field.name]`: a missing key yields `undefined`. -/
def answerOf (answers : List (String × Value)) (name : String) : Value :=
  (answers.lookup name).getD .vNull

/-- `FormValidator.validate`: iterate the form's fields in declaration
order, each field appending its errors to the shared accumulator;
`isValid` is `errors.length === 0`. -/
def validate (p : JsPrims) (form : Form) (answers : List (String × Value)) : VResult :=
  let errs := form.fields.foldl (fun acc f => acc ++ validateField p f (answerOf answers f.name)) []
  { isValid := errs.length = 0, errors := errs }

/-! ### Field reordering (fileStore.reorderFields / formController.reorderFields)

Both controllers run the same loop:
`form.fields.forEach(field => { if (fieldOrders[field._id]) field.order = fieldOrders[field._id]; });`
followed by `form.fields.sort((a, b) => a.order - b.order)`.
The `if (fieldOrders[field._id])` guard is a JavaScript truthiness test, so
a requested order of `0` (and an id absent from the map) leaves the field's
order unchanged. The engine's sort is stable; any stable sort produces the
same output, so it is modelled by insertion sort. -/

/-- The body of the `forEach`: assign the mapped order only when the mapped
value is truthy (present and nonzero). -/
def applyOrder (m : String → Option Int) (f : Field) : Field :=
  match m f.id with
  | some v => if v ≠ 0 then { f with order := v } else f
  | none => f

/-- The sort comparator `(a, b) => a.order - b.order` as a relation. -/
def fieldLe (a b : Field) : Prop := a.order ≤ b.order

instance : DecidableRel fieldLe := fun a b => inferInstanceAs (Decidable (a.order ≤ b.order))

instance : IsTotal Field fieldLe := ⟨fun a b => Int.le_total a.order b.order⟩

instance : IsTrans Field fieldLe := ⟨fun _ _ _ => Int.le_trans⟩

/-- The reorder core: apply the truthy order assignments, then stable-sort
by `order` ascending. -/
def reorderList (m : String → Option Int) (l : List Field) : List Field :=
  List.insertionSort fieldLe (l.map (applyOrder m))

/-! ### Flat-file document store (backend/utils/fileStore.js)

On disk each form lives at `uploads/forms/<formId>/form.json` and each of
its submissions at `uploads/forms/<formId>/submissions/<subId>.json`.
The state is modelled as two association lists keyed by the file paths'
variable parts; `writeJson` on an existing path replaces the entry in
place, on a new path it appends. -/

/-- `writeJson`: replace the first entry with the given key, or append. -/
def assocPut {α : Type} : List (String × α) → String → α → List (String × α)
  | [], k, v => [(k, v)]
  | (k', v') :: t, k, v => if k' = k then (k, v) :: t else (k', v') :: assocPut t k v

/-- `writeJson` keyed by a pair (submissions are keyed by form id and
submission id). -/
def assocPut2 {α : Type} : List ((String × String) × α) → String × String → α → List ((String × String) × α)
  | [], k, v => [(k, v)]
  | (k', v') :: t, k, v => if k' = k then (k, v) :: t else (k', v') :: assocPut2 t k v

/-- Submission `metadata`. -/
structure Meta where
  ipAddress : Option String := none
  userAgent : Option String := none
  submittedAt : String := ""

/-- A stored submission document, as built by `fileStore.createSubmission`. -/
structure SubRec where
  id : String
  formId : String
  status : String
  answers : List (String × Value)
  metadata : Meta
  formVersion : Int
  createdAt : String
  updatedAt : String

/-- The flat-file store state. -/
structure FileStore where
  forms : List (String × Form)
  subs : List ((String × String) × SubRec)

/-- `fileStore.getForm`: read `forms/<id>/form.json`. -/
def fileGetForm (st : FileStore) (id : String) : Option Form :=
  st.forms.lookup id

/-- Persist a form document. -/
def filePutForm (st : FileStore) (id : String) (f : Form) : FileStore :=
  { st with forms := assocPut st.forms id f }

/-- `fileStore.getSubmission`: read `forms/<formId>/submissions/<sid>.json`. -/
def fileGetSubmission (st : FileStore) (formId sid : String) : Option SubRec :=
  st.subs.lookup (formId, sid)

/-- An incoming field definition before materialization (`create`/`update`
payloads); optional slots model absent JSON keys. -/
structure FieldInput where
  id : Option String := none
  label : String := ""
  type : String := ""
  name : String := ""
  required : Option Bool := none
  options : Option (List String) := none
  validation : Option Validation := none
  order : Option Int := none

/-- Field materialization shared by `fileStore.createForm` and
`fileStore.updateForm`: `_id: f._id || generateId()`, `required: !!f.required`,
`options: f.options || []`, `validation: f.validation || {}`,
`order: typeof f.order === 'number' ? f.order : idx`. Fresh ids are drawn
from the `ids` source by position. -/
def materializeField (ids : Nat → String) (idx : Nat) (f : FieldInput) : Field :=
  { id := match f.id with
          | some s => if s ≠ "" then s else ids idx
          | none => ids idx
    label := f.label
    type := f.type
    name := f.name
    required := f.required.getD false
    options := f.options.getD []
    validation := f.validation.getD {}
    order := f.order.getD idx }

/-- A `createForm` payload. -/
structure FormPayload where
  title : String := ""
  description : Option String := none
  fields : List FieldInput := []
  status : Option String := none
  settings : Option Settings := none

/-- `fileStore.createForm`: materialize the fields, default
`status: payload.status || 'active'`, `version: 1`, and persist at the
fresh form id. -/
def fileCreateForm (st : FileStore) (payload : FormPayload) (formId : String)
    (ids : Nat → String) (now : String) : FileStore :=
  let form : Form :=
    { id := formId
      title := payload.title
      description := match payload.description with
                     | some d => d
                     | none => ""
      status := match payload.status with
                | some s => if s ≠ "" then s else "active"
                | none => "active"
      fields := payload.fields.mapIdx (materializeField ids)
      version := 1
      settings := payload.settings.getD {}
      createdAt := now
      updatedAt := now }
  filePutForm st formId form

/-- An `updateForm` payload: `{ ...existing, ...updates, updatedAt: now }`
spreads whatever keys the caller sent, including `version`. -/
structure FormUpdate where
  title : Option String := none
  description : Option String := none
  status : Option String := none
  fields : Option (List FieldInput) := none
  version : Option Int := none
  settings : Option Settings := none

/-- `fileStore.updateForm`: shallow-merge the updates over the existing
document (re-materializing fields when a `fields` array is present) and
persist; a missing form is a no-op returning null. -/
def fileUpdateForm (st : FileStore) (id : String) (u : FormUpdate)
    (ids : Nat → String) (now : String) : FileStore :=
  match fileGetForm st id with
  | none => st
  | some f =>
    let merged : Form :=
      { f with
        title := u.title.getD f.title
        description := u.description.getD f.description
        status := u.status.getD f.status
        fields := match u.fields with
                  | some fl => fl.mapIdx (materializeField ids)
                  | none => f.fields
        version := u.version.getD f.version
        settings := u.settings.getD f.settings
        updatedAt := now }
    filePutForm st id merged

/-- `fileStore.deleteForm`: `rm -rf uploads/forms/<id>` removes the form
document and the whole `submissions/` subdirectory beneath it. -/
def fileDeleteForm (st : FileStore) (id : String) : FileStore :=
  { forms := st.forms.filter (fun p => p.1 ≠ id)
    subs := st.subs.filter (fun p => p.1.1 ≠ id) }

/-- `fileStore.reorderFields`: truthy order assignments, stable sort,
persist; a missing form is a no-op returning null. -/
def fileReorderFields (st : FileStore) (id : String) (m : String → Option Int)
    (now : String) : FileStore :=
  match fileGetForm st id with
  | none => st
  | some f => filePutForm st id { f with fields := reorderList m f.fields, updatedAt := now }

/-- The submission record built by `fileStore.createSubmission`: note the
hard-coded `status: 'pending'` and `formVersion: 1`. -/
def mkSubmissionRec (formId : String) (answers : List (String × Value))
    (meta : Meta) (newId now : String) : SubRec :=
  { id := newId
    formId := formId
    status := "pending"
    answers := answers
    metadata := meta
    formVersion := 1
    createdAt := now
    updatedAt := now }

/-- `fileStore.createSubmission`: persist the new record under
`forms/<formId>/submissions/<newId>.json`. -/
def fileCreateSubmission (st : FileStore) (formId : String)
    (answers : List (String × Value)) (meta : Meta) (newId now : String) : FileStore :=
  { st with subs := assocPut2 st.subs (formId, newId) (mkSubmissionRec formId answers meta newId now) }

/-! ### submitForm (backend/controllers/submissionController.js)

The controller: load the form (404 when missing), reject with 403 when
`form.status !== 'active'`, reject with 400 when `answers` is missing or
not an object, sanitize, merge uploaded-file metadata into the answers,
run the validator, and only on success persist a submission. The embedded
function also returns the ordered list of side-effect events so that
"rejected before any validator invocation / persistence" is expressible. -/

/-- Side effects of one `submitForm` run, in execution order. -/
inductive Ev where
  | getFormEv
  | validateEv
  | persistEv
  | cleanupEv
deriving DecidableEq, Repr

/-- The controller's response, projected to its decision. -/
inductive SubmitRes where
  | notFound
  | notActive
  | badAnswers
  | invalid (errors : List Err)
  | created (id : String)

/-- Result of a `submitForm` run: response, resulting store state, and the
event trace. -/
structure SubmitOut where
  res : SubmitRes
  store : FileStore
  events : List Ev

/-- The `req.files.reduce` building the field-name → file-metadata map:
a second file for the same field turns the entry into an array, further
files are pushed onto it. -/
def addFileEntry (acc : List (String × Value)) (kv : String × Value) : List (String × Value) :=
  match acc.lookup kv.1 with
  | some (.vArr items) => assocPut acc kv.1 (.vArr (items ++ [kv.2]))
  | some v => assocPut acc kv.1 (.vArr [v, kv.2])
  | none => acc ++ [kv]

/-- `Object.assign(sanitizedAnswers, fileMap)`: file entries override
same-named answers. -/
def objAssign (base add : List (String × Value)) : List (String × Value) :=
  add.foldl (fun b kv => assocPut b kv.1 kv.2) base

/-- `submitForm`. `body` is `req.body.answers` (`none` models a missing or
non-object payload); `files` is the uploaded-file metadata keyed by field
name, already shaped by the multer middleware. -/
def submitForm (p : JsPrims) (st : FileStore) (formId : String)
    (body : Option (List (String × Value))) (files : List (String × Value))
    (meta : Meta) (newId now : String) : SubmitOut :=
  match fileGetForm st formId with
  | none => ⟨.notFound, st, [.getFormEv]⟩
  | some form =>
    if form.status ≠ "active" then ⟨.notActive, st, [.getFormEv]⟩
    else
      match body with
      | none => ⟨.badAnswers, st, [.getFormEv, .cleanupEv]⟩
      | some answers =>
        let sanitized := answers.map fun kv => (kv.1, p.sanitizeVal kv.2)
        let merged := if files.isEmpty then sanitized
                      else objAssign sanitized (files.foldl addFileEntry [])
        let vr := validate p form merged
        if vr.isValid then
          ⟨.created newId, fileCreateSubmission st formId merged meta newId now,
           [.getFormEv, .validateEv, .persistEv]⟩
        else ⟨.invalid vr.errors, st, [.getFormEv, .validateEv, .cleanupEv]⟩

/-! ### Submission mutation and stats
(backend/controllers/submissionController.js) -/

/-- The update object assembled by `updateSubmissionStatus`: a `status` key
only when the body carried one of the three enum values, an `answers` key
only when re-validation succeeded. -/
structure SubUpdate where
  status : Option String := none
  answers : Option (List (String × Value)) := none

/-- `fileStore.updateSubmission`'s shallow merge of the update object. -/
def applySubUpdate (s : SubRec) (u : SubUpdate) (now : String) : SubRec :=
  { s with
    status := u.status.getD s.status
    answers := u.answers.getD s.answers
    updatedAt := now }

/-- `getSubmissionStats`: `total` is the size of the listed data and each
status count is a filter over the same data. -/
structure SubStats where
  total : Nat
  pending : Nat
  reviewed : Nat
  archived : Nat
deriving DecidableEq, Repr

/-- `getSubmissionStats` over the listed submissions of one form. -/
def getSubmissionStats (data : List SubRec) : SubStats :=
  { total := data.length
    pending := (data.filter fun s => s.status = "pending").length
    reviewed := (data.filter fun s => s.status = "reviewed").length
    archived := (data.filter fun s => s.status = "archived").length }

/-- Submission-store states reachable through the repository's submission
operations: submissions are created only by `submitForm` (via
`createSubmission`, which stamps status `pending`), mutated only by
`updateSubmissionStatus` (which admits a `status` key only for the three
enum values), and deleted by id. -/
inductive ReachableSubs : List SubRec → Prop where
  | init : ReachableSubs []
  | create (l : List SubRec) (formId : String) (answers : List (String × Value))
      (meta : Meta) (newId now : String) :
      ReachableSubs l → ReachableSubs (l ++ [mkSubmissionRec formId answers meta newId now])
  | update (l : List SubRec) (sid : String) (u : SubUpdate) (now : String) :
      ReachableSubs l →
      (∀ s, u.status = some s → s = "pending" ∨ s = "reviewed" ∨ s = "archived") →
      ReachableSubs (l.map fun s => if s.id = sid then applySubUpdate s u now else s)
  | delete (l : List SubRec) (sid : String) :
      ReachableSubs l → ReachableSubs (l.filter fun s => s.id ≠ sid)

/-! ### Mongoose form update with version snapshotting
(backend/controllers/formController.js, backend/models/Form.js,
backend/models/FormVersion.js) -/

/-- A `FormVersion` record: an immutable snapshot of a form's pre-update
state keyed by `(formId, version)`. -/
structure VRec where
  formId : String
  version : Int
  title : String
  description : String
  fields : List Field
  settings : Settings
deriving DecidableEq, Repr

/-- The snapshot `Form.createVersion` writes. -/
def snapshotOf (f : Form) : VRec :=
  ⟨f.id, f.version, f.title, f.description, f.fields, f.settings⟩

/-- The database-backed store: `forms`, `submissions` and `formversions`
are independent collections. -/
structure MongoStore where
  forms : List Form
  submissions : List SubRec
  versions : List VRec

/-- `Form.findById`. -/
def mongoFindForm (st : MongoStore) (id : String) : Option Form :=
  st.forms.find? fun f => f.id = id

/-- Replace the document with the given id (mongoose `save` /
`findByIdAndUpdate`). -/
def replaceForm (forms : List Form) (id : String) (f : Form) : List Form :=
  forms.map fun g => if g.id = id then f else g

/-- `Form.createVersion` (success path, as the spec assumes): append a
snapshot of the current state to the `FormVersion` collection, then
increment `version` and save. -/
def mongoCreateVersion (st : MongoStore) (f : Form) : Form × MongoStore :=
  let bumped := { f with version := f.version + 1 }
  (bumped,
   { st with
     versions := st.versions ++ [snapshotOf f]
     forms := replaceForm st.forms f.id bumped })

/-- An update request body, restricted to the keys the API uses. `none`
models an absent key. -/
structure UpdateBody where
  title : Option String := none
  description : Option String := none
  status : Option String := none
  fields : Option (List Field) := none

/-- `Object.keys(req.body).length`. -/
def bodyKeyCount (b : UpdateBody) : Nat :=
  (if b.title.isSome then 1 else 0) + (if b.description.isSome then 1 else 0) +
    (if b.status.isSome then 1 else 0) + (if b.fields.isSome then 1 else 0)

/-- `Object.keys(req.body).length === 1 && req.body.status` — the second
conjunct is a truthiness test on the status value. -/
def isStatusOnlyUpdate (b : UpdateBody) : Bool :=
  decide (bodyKeyCount b = 1) && (match b.status with | some s => decide (s ≠ "") | none => false)

/-- `findByIdAndUpdate` with the request body: `$set` the present keys. -/
def applyBody (f : Form) (b : UpdateBody) (now : String) : Form :=
  { f with
    title := b.title.getD f.title
    description := b.description.getD f.description
    status := b.status.getD f.status
    fields := b.fields.getD f.fields
    updatedAt := now }

/-- `formController.updateForm`: 404 when missing; snapshot the pre-update
state unless the update is status-only; then apply the body. -/
def mongoUpdateForm (st : MongoStore) (id : String) (b : UpdateBody)
    (now : String) : Option Form × MongoStore :=
  match mongoFindForm st id with
  | none => (none, st)
  | some f =>
    let (f1, st1) := if isStatusOnlyUpdate b then (f, st) else mongoCreateVersion st f
    let f2 := applyBody f1 b now
    (some f2, { st1 with forms := replaceForm st1.forms id f2 })

/-- `formController.deleteForm` (database backend): `form.deleteOne()`
removes only the form document; no cascade touches submissions. -/
def mongoDeleteForm (st : MongoStore) (id : String) : MongoStore :=
  { st with forms := st.forms.filter fun f => f.id ≠ id }

/-! ### Concrete fixtures used by witnesses and counterexamples -/

/-- A required text field with no constraints. -/
def wReqField : Field :=
  { id := "fld1", label := "Full Name", type := "text", name := "full_name",
    required := true, options := [], validation := {}, order := 0 }

/-- The spec's scenario field: required text with `minLength = 2`. -/
def c7field : Field :=
  { id := "fld2", label := "Full Name", type := "text", name := "full_name",
    required := true, options := [], validation := { minLength := some 2 }, order := 0 }

/-- A one-field form around `c7field`. -/
def c7form : Form :=
  { id := "f7", title := "Contact", description := "", status := "active",
    fields := [c7field], version := 1, settings := {}, createdAt := "t0", updatedAt := "t0" }

/-- A field whose current order is 5. -/
def c5field : Field :=
  { id := "a", label := "A", type := "text", name := "a",
    required := false, options := [], validation := {}, order := 5 }

/-- A reorder map requesting order `0` for field `a`. -/
def c5map : String → Option Int := fun s => if s = "a" then some 0 else none

/-- A one-field form around `c5field`. -/
def c5form : Form :=
  { id := "f1", title := "T", description := "", status := "active",
    fields := [c5field], version := 1, settings := {}, createdAt := "t0", updatedAt := "t0" }

/-- A store holding `c5form`. -/
def c5store : FileStore := ⟨[("f1", c5form)], []⟩

/-- A second field, order 3, for the reorder witness. -/
def w5fieldB : Field :=
  { id := "b", label := "B", type := "text", name := "b",
    required := false, options := [], validation := {}, order := 3 }

/-- A two-field form: `b` (order 3) before `a` (order 5). -/
def wForm5 : Form :=
  { id := "f1", title := "T", description := "", status := "active",
    fields := [w5fieldB, c5field], version := 1, settings := {}, createdAt := "t0", updatedAt := "t0" }

/-- A reorder map moving field `b` to order 7. -/
def wMap5 : String → Option Int := fun s => if s = "b" then some 7 else none

/-- A store holding `wForm5`. -/
def wStore5 : FileStore := ⟨[("f1", wForm5)], []⟩

/-- Payload for the C1 run: an active form with no fields. -/
def c1payload : FormPayload := { title := "T", status := some "active" }

/-- Fresh-id source for the C1 run. -/
def c1ids : Nat → String := fun n => "fid" ++ toString n

/-- Store after `createForm` (form `f1`, version 1). -/
def c1st0 : FileStore := fileCreateForm ⟨[], []⟩ c1payload "f1" c1ids "t0"

/-- Store after `updateForm` shallow-merges `{ version: 2 }` into `f1`. -/
def c1st1 : FileStore := fileUpdateForm c1st0 "f1" { version := some 2 } c1ids "t1"

/-- Submission metadata for the C1 run. -/
def c1meta : Meta := { submittedAt := "t2" }

/-- The C1 `submitForm` run: valid (empty) answers against form `f1`. -/
def c1out : SubmitOut := submitForm defaultPrims c1st1 "f1" (some []) [] c1meta "s1" "t2"

/-- A draft (not active) form. -/
def w8form : Form :=
  { id := "f2", title := "Draft", description := "", status := "draft",
    fields := [], version := 1, settings := {}, createdAt := "t0", updatedAt := "t0" }

/-- A store holding the draft form. -/
def w8store : FileStore := ⟨[("f2", w8form)], []⟩

/-- An active form `f1` for the deletion scenario. -/
def c4form : Form :=
  { id := "f1", title := "T", description := "", status := "active",
    fields := [], version := 1, settings := {}, createdAt := "t0", updatedAt := "t0" }

/-- A submission stored under form `f1`. -/
def c4sub : SubRec := mkSubmissionRec "f1" [] { submittedAt := "t1" } "s1" "t1"

/-- A flat-file store holding form `f1` and its submission `s1`. -/
def c4store : FileStore := ⟨[("f1", c4form)], [(("f1", "s1"), c4sub)]⟩

/-- The database-backed counterpart of `c4store`. -/
def w4mongo : MongoStore := ⟨[c4form], [c4sub], []⟩

/-- A database-backed form at version 3. -/
def w9form : Form :=
  { id := "f1", title := "Old", description := "", status := "active",
    fields := [], version := 3, settings := {}, createdAt := "t0", updatedAt := "t0" }

/-- A database-backed store holding `w9form` and no version records. -/
def w9store : MongoStore := ⟨[w9form], [], []⟩

/-- A structural update body: only the `title` key. -/
def w9bodyTitle : UpdateBody := { title := some "X" }

/-- Metadata for the stats witness. -/
def w10meta : Meta := { submittedAt := "t1" }

/-- A one-submission store state reachable via `createSubmission`. -/
def w10subs : List SubRec := [mkSubmissionRec "f1" [] w10meta "s1" "t1"]

/-! ### Helper lemmas -/

/-- The validator's error accumulator: folding `acc ++ errors-of-field`
over the fields equals the in-order concatenation of the per-field error
lists. -/
theorem foldl_append_eq {α β : Type} (f : α → List β) :
    ∀ (l : List α) (acc : List β),
      l.foldl (fun a x => a ++ f x) acc = acc ++ l.flatMap f
  | [], acc => by simp
  | x :: xs, acc => by
    simp only [List.foldl_cons, List.flatMap_cons, foldl_append_eq f xs, List.append_assoc]

/-- `writeJson` then `readJson` at the same path yields the written value. -/
theorem lookup_assocPut_self {α : Type} :
    ∀ (l : List (String × α)) (k : String) (v : α), (assocPut l k v).lookup k = some v
  | [], k, v => by simp [assocPut, List.lookup]
  | (k', v') :: t, k, v => by
    by_cases h : k' = k
    · simp [assocPut, h, List.lookup]
    · have hb : (k == k') = false := beq_false_of_ne fun he => h he.symm
      simp [assocPut, h, List.lookup, hb, lookup_assocPut_self t k v]

/-- Pair-keyed variant of `lookup_assocPut_self`. -/
theorem lookup_assocPut2_self {α : Type} :
    ∀ (l : List ((String × String) × α)) (k : String × String) (v : α),
      (assocPut2 l k v).lookup k = some v
  | [], k, v => by simp [assocPut2, List.lookup]
  | (k', v') :: t, k, v => by
    by_cases h : k' = k
    · simp [assocPut2, h, List.lookup]
    · have hb : (k == k') = false := beq_false_of_ne fun he => h he.symm
      simp [assocPut2, h, List.lookup, hb, lookup_assocPut2_self t k v]

/-- Removing every entry of form `fid` makes lookups under `fid` miss. -/
theorem lookup_filter_fid_none {α : Type} (fid sid : String) :
    ∀ l : List ((String × String) × α),
      ((l.filter fun p => p.1.1 ≠ fid).lookup (fid, sid)) = none
  | [] => by simp [List.lookup]
  | (k, v) :: t => by
    by_cases hk : k.1 = fid
    · simpa [List.filter_cons, hk] using lookup_filter_fid_none fid sid t
    · have hb : ((fid, sid) == k) = false := beq_false_of_ne fun he => hk (by rw [← he])
      simpa [List.filter_cons, hk, List.lookup, hb] using lookup_filter_fid_none fid sid t

/-- Removing form `fid`'s entries leaves other forms' lookups unchanged. -/
theorem lookup_filter_fid_other {α : Type} (fid fid2 sid : String) (h : fid2 ≠ fid) :
    ∀ l : List ((String × String) × α),
      ((l.filter fun p => p.1.1 ≠ fid).lookup (fid2, sid)) = l.lookup (fid2, sid)
  | [] => by simp
  | (k, v) :: t => by
    by_cases hk : k.1 = fid
    · have hb : ((fid2, sid) == k) = false :=
        beq_false_of_ne fun he => h (by rw [← hk, ← he])
      simpa [List.filter_cons, hk, List.lookup, hb] using lookup_filter_fid_other fid fid2 sid h t
    · by_cases hkey : (fid2, sid) = k
      · have hb : ((fid2, sid) == k) = true := beq_iff_eq.2 hkey
        simp [List.filter_cons, hk, List.lookup, hb]
      · have hb : ((fid2, sid) == k) = false := beq_false_of_ne hkey
        simpa [List.filter_cons, hk, List.lookup, hb] using lookup_filter_fid_other fid fid2 sid h t

/-- Reading back a just-persisted form. -/
theorem fileGetForm_filePutForm (st : FileStore) (id : String) (f : Form) :
    fileGetForm (filePutForm st id f) id = some f :=
  lookup_assocPut_self st.forms id f

/-- The truthy order assignment never changes a field's id. -/
theorem applyOrder_id (m : String → Option Int) (f : Field) :
    (applyOrder m f).id = f.id := by
  unfold applyOrder
  cases m f.id with
  | none => rfl
  | some v =>
    by_cases h : v = 0 <;> simp [h]

/-- Assigning the mapped orders twice is the same as once. -/
theorem applyOrder_idem (m : String → Option Int) (f : Field) :
    applyOrder m (applyOrder m f) = applyOrder m f := by
  have hid := applyOrder_id m f
  unfold applyOrder at hid ⊢
  cases h : m f.id with
  | none => simp [h]
  | some v =>
    by_cases hv : v = 0
    · simp [h, hv]
    · simp [h, hv]

/-- Every element of a reorder result is a fixed point of the assignment. -/
theorem reorderList_fixed (m : String → Option Int) (l : List Field) :
    ∀ x ∈ reorderList m l, applyOrder m x = x := by
  intro x hx
  have hx' : x ∈ l.map (applyOrder m) :=
    (List.perm_insertionSort fieldLe (l.map (applyOrder m))).mem_iff.1 hx
  obtain ⟨y, _, rfl⟩ := List.mem_map.1 hx'
  exact applyOrder_idem m y

/-- The reorder core is idempotent. -/
theorem reorderList_idem (m : String → Option Int) (l : List Field) :
    reorderList m (reorderList m l) = reorderList m l := by
  have hmap : (reorderList m l).map (applyOrder m) = reorderList m l := by
    rw [List.map_congr_left (fun x hx => reorderList_fixed m l x hx)]
    exact List.map_id (reorderList m l)
  have hsorted : List.Sorted fieldLe (reorderList m l) :=
    List.sorted_insertionSort fieldLe (l.map (applyOrder m))
  unfold reorderList at hmap hsorted ⊢
  rw [hmap]
  exact hsorted.insertionSort_eq

/-- Any list whose statuses all lie in the three-member enum splits into the
three status counts. -/
theorem length_eq_statusCounts :
    ∀ l : List SubRec,
      (∀ s ∈ l, s.status = "pending" ∨ s.status = "reviewed" ∨ s.status = "archived") →
      l.length = (l.filter fun s => s.status = "pending").length
        + (l.filter fun s => s.status = "reviewed").length
        + (l.filter fun s => s.status = "archived").length
  | [], _ => rfl
  | s :: t, h => by
    have hs := h s (List.mem_cons_self s t)
    have ht := length_eq_statusCounts t fun x hx => h x (List.mem_cons_of_mem s hx)
    rcases hs with hs | hs | hs <;>
      simp [List.filter_cons, hs, ht] <;> omega

/-- Every submission in a reachable store state carries one of the three
enum statuses. -/
theorem reachable_status_enum (l : List SubRec) (h : ReachableSubs l) :
    ∀ s ∈ l, s.status = "pending" ∨ s.status = "reviewed" ∨ s.status = "archived" := by
  induction h with
  | init => simp
  | create l formId answers meta newId now _ ih =>
    intro s hs
    rcases List.mem_append.1 hs with hs | hs
    · exact ih s hs
    · have : s = mkSubmissionRec formId answers meta newId now := by simpa using hs
      left
      rw [this]
      rfl
  | update l sid u now _ hval ih =>
    intro s hs
    obtain ⟨t, ht, rfl⟩ := List.mem_map.1 hs
    by_cases hid : t.id = sid
    · simp only [hid, if_true, if_pos rfl]
      cases hu : u.status with
      | none => simpa [applySubUpdate, hu] using ih t ht
      | some v => simpa [applySubUpdate, hu] using hval v hu
    · simpa [hid] using ih t ht
  | delete l sid _ ih =>
    intro s hs
    exact ih s (List.mem_of_mem_filter hs)

/-! ### Claim theorems -/

/-- C2: for every required field whose submitted value is empty
(null/undefined, a trim-empty string, or an empty array), the validator
emits exactly the single error `"<label> is required"` for that field and
runs no type-specific check on it. -/
theorem validateField_required_empty (p : JsPrims) (f : Field) (v : Value)
    (hreq : f.required = true) (he : jsIsEmpty v = true) :
    validateField p f v = [requiredErr f] := by
  simp [validateField, hreq, he]

/-- Witness for C2 at a concrete required text field and the three empty
value shapes of the claim. -/
theorem validateField_required_empty_witness :
    wReqField.required = true
  ∧ jsIsEmpty (Value.vStr "   ") = true
  ∧ jsIsEmpty Value.vNull = true
  ∧ jsIsEmpty (Value.vArr []) = true
  ∧ validateField defaultPrims wReqField (Value.vStr "   ") = [requiredErr wReqField]
  ∧ (requiredErr wReqField).message = "Full Name is required" :=
  ⟨rfl, by decide, rfl, rfl,
   validateField_required_empty defaultPrims wReqField (Value.vStr "   ") rfl (by decide),
   by decide⟩

/-- C3: `validate` evaluates every field in declaration order with no early
exit across fields — its error list is the in-order concatenation of the
per-field error lists — and `isValid` holds iff that list is empty. -/
theorem validate_inorder_aggregation (p : JsPrims) (form : Form)
    (answers : List (String × Value)) :
    (validate p form answers).errors
        = form.fields.flatMap (fun f => validateField p f (answerOf answers f.name))
  ∧ ((validate p form answers).isValid = true ↔ (validate p form answers).errors = []) := by
  have h := foldl_append_eq (fun f => validateField p f (answerOf answers f.name)) form.fields []
  constructor
  · simpa [validate] using h
  · simp [validate, List.length_eq_zero]

/-- C7 (corrected): the `minLength` check compares the raw (untrimmed)
string length, so for a text field with `minLength = 2` a submitted string
that is nonempty after trimming is rejected with the minLength error
exactly when its raw length is 1, and a raw length of 2 passes. -/
theorem validateField_text_minLength (p : JsPrims) (f : Field) (s : String)
    (hty : f.type = "text") (hval : f.validation = { minLength := some 2 })
    (htrim : jsTrim s ≠ "") :
    (s.length = 1 → validateField p f (.vStr s) = [minLengthErr f 2])
  ∧ (s.length = 2 → validateField p f (.vStr s) = []) := by
  have he : jsIsEmpty (.vStr s) = false := by simp [jsIsEmpty, htrim]
  constructor
  · intro h1
    simp [validateField, he, hty, validateText, hval, h1]
  · intro h2
    simp [validateField, he, hty, validateText, hval, h2]

/-- Witness for C7's corrected statement: `"J"` (length 1) is rejected with
the minLength message, `"Jo"` (length 2) is accepted. -/
theorem validateField_text_minLength_witness :
    c7field.type = "text"
  ∧ c7field.validation = { minLength := some 2 }
  ∧ jsTrim "J" ≠ ""
  ∧ ("J" : String).length = 1
  ∧ ("Jo" : String).length = 2
  ∧ validateField defaultPrims c7field (.vStr "J") = [minLengthErr c7field 2]
  ∧ validateField defaultPrims c7field (.vStr "Jo") = []
  ∧ (minLengthErr c7field 2).message = "Full Name must be at least 2 characters" :=
  ⟨rfl, rfl, by decide, by decide, by decide,
   (validateField_text_minLength defaultPrims c7field "J" rfl rfl (by decide)).1 (by decide),
   (validateField_text_minLength defaultPrims c7field "Jo" rfl rfl (by decide)).2 (by decide),
   by decide⟩

/-- C7 counterexample: the claim as stated says any non-empty submitted
string whose trimmed form has exactly one character is rejected; but
`" a "` trims to the single character `"a"` while its raw length 3 passes
the `minLength = 2` check, so the submission is accepted with no errors. -/
theorem textMinLength_trimmed_counterexample :
    c7field.type = "text"
  ∧ c7field.validation.minLength = some 2
  ∧ (jsTrim " a ").length = 1
  ∧ jsIsEmpty (.vStr " a ") = false
  ∧ validateField defaultPrims c7field (.vStr " a ") = []
  ∧ validate defaultPrims c7form [("full_name", .vStr " a ")]
      = { isValid := true, errors := [] } :=
  ⟨rfl, rfl, by decide, by decide, by decide, by decide⟩

/-- Unfolding of `fileReorderFields` when the form exists. -/
theorem fileReorderFields_eq (st : FileStore) (id : String) (m : String → Option Int)
    (now : String) (f : Form) (hf : fileGetForm st id = some f) :
    fileReorderFields st id m now
      = filePutForm st id { f with fields := reorderList m f.fields, updatedAt := now } := by
  simp [fileReorderFields, hf]

/-- C5 counterexample: the claim says `reorder` sets the order of exactly
the fields named in the map to the given values, but the guard
`if (fieldOrders[field._id])` is a truthiness test, so mapping field `a`
(current order 5) to the order `0` leaves its order at 5 instead of 0 —
both in the core list operation and through the store operation. -/
theorem reorder_zero_order_counterexample :
    c5map "a" = some 0
  ∧ c5form.fields.map Field.order = [5]
  ∧ (reorderList c5map c5form.fields).map Field.order = [5]
  ∧ Option.map (fun f => f.fields.map Field.order)
      (fileGetForm (fileReorderFields c5store "f1" c5map "t1") "f1") = some [5]
  ∧ (5 : Int) ≠ 0 :=
  ⟨rfl, rfl, by decide, by decide, by decide⟩

/-- C5 (corrected): `reorder` persists and returns the form with the
assignment applied and the fields stably sorted by `order` ascending, where
the assignment sets the order of exactly the fields whose id maps to a
truthy (present and nonzero) value; fields absent from the map — and fields
mapped to `0` — keep their current order. -/
theorem fileReorderFields_spec (st : FileStore) (id now : String)
    (m : String → Option Int) (f : Form) (hf : fileGetForm st id = some f) :
    fileGetForm (fileReorderFields st id m now) id
        = some { f with fields := reorderList m f.fields, updatedAt := now }
  ∧ List.Sorted (· ≤ ·) ((reorderList m f.fields).map Field.order)
  ∧ List.Perm (reorderList m f.fields) (f.fields.map (applyOrder m))
  ∧ (∀ g : Field, applyOrder m g
        = match m g.id with
          | some v => if v ≠ 0 then { g with order := v } else g
          | none => g) := by
  refine ⟨?_, ?_, ?_, fun g => rfl⟩
  · simp only [fileReorderFields, hf]
    exact fileGetForm_filePutForm st id _
  · have hs : List.Sorted fieldLe (reorderList m f.fields) :=
      List.sorted_insertionSort fieldLe (f.fields.map (applyOrder m))
    exact List.pairwise_map.2 hs
  · exact List.perm_insertionSort fieldLe (f.fields.map (applyOrder m))

/-- Witness for C5's corrected statement: field `b` (order 3) is mapped to
7, field `a` (order 5) is untouched; the stored result is `[a, b]` with
orders `[5, 7]`. -/
theorem fileReorderFields_spec_witness :
    fileGetForm wStore5 "f1" = some wForm5
  ∧ fileGetForm (fileReorderFields wStore5 "f1" wMap5 "t1") "f1"
      = some { wForm5 with fields := reorderList wMap5 wForm5.fields, updatedAt := "t1" }
  ∧ (reorderList wMap5 wForm5.fields).map Field.order = [5, 7]
  ∧ (reorderList wMap5 wForm5.fields).map Field.id = ["a", "b"] :=
  ⟨rfl, (fileReorderFields_spec wStore5 "f1" "t1" wMap5 wForm5 rfl).1, by decide, by decide⟩

/-- C6: applying the same reorder map twice yields the same stored field
list as applying it once (idempotence of `reorderFields`). -/
theorem fileReorderFields_idempotent (st : FileStore) (id : String)
    (m : String → Option Int) (t1 t2 : String) :
    Option.map Form.fields
        (fileGetForm (fileReorderFields (fileReorderFields st id m t1) id m t2) id)
      = Option.map Form.fields (fileGetForm (fileReorderFields st id m t1) id) := by
  cases hf : fileGetForm st id with
  | none => simp [fileReorderFields, hf]
  | some f =>
    have h1 : fileGetForm (fileReorderFields st id m t1) id
        = some { f with fields := reorderList m f.fields, updatedAt := t1 } := by
      rw [fileReorderFields_eq st id m t1 f hf]
      exact fileGetForm_filePutForm st id _
    have h2 : fileGetForm (fileReorderFields (fileReorderFields st id m t1) id m t2) id
        = some { f with fields := reorderList m (reorderList m f.fields), updatedAt := t2 } := by
      rw [fileReorderFields_eq (fileReorderFields st id m t1) id m t2 _ h1]
      exact fileGetForm_filePutForm _ id _
    rw [h1, h2]
    simp [reorderList_idem]

/-- C4 counterexample: the claim says submissions survive form deletion in
either backend, but in the flat-file backend `deleteForm` removes the whole
`uploads/forms/<id>` directory, submissions subdirectory included: after
deleting form `f1` its stored submission `s1` is gone. -/
theorem fileDeleteForm_cascades_counterexample :
    fileGetSubmission c4store "f1" "s1" = some c4sub
  ∧ fileGetSubmission (fileDeleteForm c4store "f1") "f1" "s1" = none
  ∧ (fileDeleteForm c4store "f1").subs = [] :=
  ⟨rfl, rfl, rfl⟩

/-- C4 (corrected): in the database backend deleting a form leaves the
submission collection untouched (no cascade); in the flat-file backend
deleting a form removes exactly that form's submissions — submissions of
other forms survive. -/
theorem deleteForm_submission_frame (mst : MongoStore) (st : FileStore)
    (fid fid2 sid : String) :
    (mongoDeleteForm mst fid).submissions = mst.submissions
  ∧ fileGetSubmission (fileDeleteForm st fid) fid sid = none
  ∧ (fid2 ≠ fid →
      fileGetSubmission (fileDeleteForm st fid) fid2 sid = fileGetSubmission st fid2 sid) :=
  ⟨rfl, lookup_filter_fid_none fid sid st.subs,
   fun h => lookup_filter_fid_other fid fid2 sid h st.subs⟩

/-- Witness for C4's corrected statement on concrete stores. -/
theorem deleteForm_submission_frame_witness :
    ("g" : String) ≠ "f1"
  ∧ (mongoDeleteForm w4mongo "f1").submissions = w4mongo.submissions
  ∧ fileGetSubmission (fileDeleteForm c4store "f1") "f1" "s1" = none
  ∧ fileGetSubmission (fileDeleteForm c4store "f1") "g" "s1"
      = fileGetSubmission c4store "g" "s1" :=
  ⟨by decide,
   (deleteForm_submission_frame w4mongo c4store "f1" "g" "s1").1,
   (deleteForm_submission_frame w4mongo c4store "f1" "g" "s1").2.1,
   (deleteForm_submission_frame w4mongo c4store "f1" "g" "s1").2.2 (by decide)⟩

/-- C8: a submission against a form whose status is not `active` is
rejected with the 403 outcome, the store is unchanged (nothing persisted),
and the run's event trace contains neither a validator invocation nor a
persistence step. -/
theorem submitForm_inactive_rejected (p : JsPrims) (st : FileStore) (formId : String)
    (body : Option (List (String × Value))) (files : List (String × Value))
    (meta : Meta) (newId now : String) (f : Form)
    (hf : fileGetForm st formId = some f) (hs : f.status ≠ "active") :
    (submitForm p st formId body files meta newId now).res = SubmitRes.notActive
  ∧ (submitForm p st formId body files meta newId now).store = st
  ∧ Ev.validateEv ∉ (submitForm p st formId body files meta newId now).events
  ∧ Ev.persistEv ∉ (submitForm p st formId body files meta newId now).events := by
  simp [submitForm, hf, hs]

/-- Witness for C8 at a concrete draft form. -/
theorem submitForm_inactive_rejected_witness :
    fileGetForm w8store "f2" = some w8form
  ∧ w8form.status ≠ "active"
  ∧ (submitForm defaultPrims w8store "f2" (some []) [] {} "s9" "t9").res = SubmitRes.notActive
  ∧ (submitForm defaultPrims w8store "f2" (some []) [] {} "s9" "t9").store = w8store
  ∧ Ev.validateEv ∉ (submitForm defaultPrims w8store "f2" (some []) [] {} "s9" "t9").events :=
  ⟨rfl, by decide,
   (submitForm_inactive_rejected defaultPrims w8store "f2" (some []) [] {} "s9" "t9" w8form
      rfl (by decide)).1,
   (submitForm_inactive_rejected defaultPrims w8store "f2" (some []) [] {} "s9" "t9" w8form
      rfl (by decide)).2.1,
   (submitForm_inactive_rejected defaultPrims w8store "f2" (some []) [] {} "s9" "t9" w8form
      rfl (by decide)).2.2.1⟩

/-- C1 evaluated at its failing input: form `f1` is at version 2 at submit
time (the flat-file `updateForm` shallow-merged `{ version: 2 }`), the
submission is accepted and persisted with status `pending` — but
`createSubmission` stamps the hard-coded `formVersion: 1`, not the form's
current version 2. -/
theorem submitForm_formVersion_divergence :
    Option.map Form.version (fileGetForm c1st1 "f1") = some 2
  ∧ Option.map Form.status (fileGetForm c1st1 "f1") = some "active"
  ∧ c1out.res = SubmitRes.created "s1"
  ∧ Option.map SubRec.status (fileGetSubmission c1out.store "f1" "s1") = some "pending"
  ∧ Option.map SubRec.formVersion (fileGetSubmission c1out.store "f1" "s1") = some 1
  ∧ (1 : Int) ≠ 2 :=
  ⟨rfl, rfl, rfl, rfl, rfl, by decide⟩

/-- C9: for an existing form, an update whose body carries only the
`status` key (with a valid enum value, as the route's validation middleware
guarantees) writes no `FormVersion` record, while an update carrying any
other key appends exactly one snapshot of the pre-update state. -/
theorem mongoUpdateForm_versioning (st : MongoStore) (id now : String)
    (b : UpdateBody) (f : Form) (hf : mongoFindForm st id = some f)
    (hval : ∀ s, b.status = some s → s = "draft" ∨ s = "active" ∨ s = "archived") :
    ((b.title = none ∧ b.description = none ∧ b.fields = none ∧ b.status.isSome = true) →
        (mongoUpdateForm st id b now).2.versions = st.versions)
  ∧ ((b.title.isSome = true ∨ b.description.isSome = true ∨ b.fields.isSome = true) →
        (mongoUpdateForm st id b now).2.versions = st.versions ++ [snapshotOf f]) := by
  constructor
  · rintro ⟨ht, hd, hfl, hst⟩
    obtain ⟨s, hs⟩ := Option.isSome_iff_exists.1 hst
    have hnz : s ≠ "" := by
      rcases hval s hs with h | h | h <;> simp [h]
    have honly : isStatusOnlyUpdate b = true := by
      simp [isStatusOnlyUpdate, bodyKeyCount, ht, hd, hfl, hs, hnz]
    simp [mongoUpdateForm, hf, honly]
  · intro h
    have hfalse : isStatusOnlyUpdate b = false := by
      cases hst : b.status with
      | none => simp [isStatusOnlyUpdate, hst]
      | some s =>
        have hk : bodyKeyCount b ≠ 1 := by
          unfold bodyKeyCount
          rcases h with h | h | h <;> simp only [h, hst, Option.isSome_some, if_true] <;>
            split_ifs <;> omega
        simp [isStatusOnlyUpdate, hk]
    simp [mongoUpdateForm, hf, hfalse, mongoCreateVersion]

/-- Witness for C9: on a concrete version-3 form, a title-only update
appends the pre-update snapshot, and a status-only update (to `archived`)
appends nothing. -/
theorem mongoUpdateForm_versioning_witness :
    mongoFindForm w9store "f1" = some w9form
  ∧ (mongoUpdateForm w9store "f1" w9bodyTitle "t2").2.versions
      = w9store.versions ++ [snapshotOf w9form]
  ∧ snapshotOf w9form = ⟨"f1", 3, "Old", "", [], {}⟩
  ∧ (mongoUpdateForm w9store "f1" { status := some "archived" } "t3").2.versions
      = w9store.versions :=
  ⟨rfl,
   (mongoUpdateForm_versioning w9store "f1" "t2" w9bodyTitle w9form rfl
      (fun s h => nomatch h)).2 (Or.inl rfl),
   rfl,
   (mongoUpdateForm_versioning w9store "f1" "t3" { status := some "archived" } w9form rfl
      (by intro s h; cases h; right; right; rfl)).1 ⟨rfl, rfl, rfl, rfl⟩⟩

/-- C10: in every submission-store state reachable through the repository's
submission operations, every persisted submission's status is one of
pending/reviewed/archived, and therefore the stats satisfy
`total = pending + reviewed + archived`. -/
theorem stats_status_partition (l : List SubRec) (h : ReachableSubs l) :
    (∀ s ∈ l, s.status = "pending" ∨ s.status = "reviewed" ∨ s.status = "archived")
  ∧ (getSubmissionStats l).total
      = (getSubmissionStats l).pending + (getSubmissionStats l).reviewed
          + (getSubmissionStats l).archived := by
  have hall := reachable_status_enum l h
  exact ⟨hall, by simpa [getSubmissionStats] using length_eq_statusCounts l hall⟩

/-- Witness for C10 at a concrete reachable one-submission state. -/
theorem stats_status_partition_witness :
    (getSubmissionStats w10subs).total = 1
  ∧ (getSubmissionStats w10subs).pending = 1
  ∧ (getSubmissionStats w10subs).total
      = (getSubmissionStats w10subs).pending + (getSubmissionStats w10subs).reviewed
          + (getSubmissionStats w10subs).archived :=
  ⟨by decide, by decide,
   (stats_status_partition w10subs
      (ReachableSubs.create [] "f1" [] w10meta "s1" "t1" ReachableSubs.init)).2⟩

end FormBuilder
